import Mathlib

/-!
Verification of the streaming orchestration core of `openwakeword/model.py`
(class `Model`): per-label score buffering with cold-start suppression,
patience/threshold debouncing, parent-model lookup, model-name derivation,
and clip-level frame iteration.

Python floats are modelled as rationals (the core only stores scores and
compares them with `>=`; no rounding-sensitive arithmetic occurs), Python
dicts that are iterated in insertion order are modelled as association
lists, and the `defaultdict(deque(maxlen=30))` prediction buffer is
modelled as a total function from labels to lists (front = oldest).
The ONNX scoring call is an external collaborator and enters as a
parameter giving each model's raw output vector for the current frame.
-/

namespace OpenWakeWord

abbrev Score := ℚ

/-- The prediction buffer: label to ordered list of past scores, oldest
first.  A label never appended is the empty list, mirroring
`defaultdict(partial(deque, maxlen=30))` at model.py line 70. -/
abbrev Buffer := String → List Score

/-- The `predictions` dict built during one `predict` call, in insertion
order. -/
abbrev Preds := List (String × Score)

/-- The `class_mapping` entry for one model (model.py lines 62-66): either
the model's own name (a plain string output name, the binary case) or a
parsed JSON dict from output-index to label. -/
inductive ClassMapping where
  | binary (label : String)
  | multi (mapping : List (Nat × String))
deriving DecidableEq

/-- One loaded wakeword model: its registry name, its output count
(`model_outputs`, model.py line 61) and its label mapping. -/
structure Mdl where
  name : String
  model_outputs : Nat
  class_mapping : ClassMapping
deriving DecidableEq

/-- Python exceptions reachable from the debounce block of `predict`:
`valueError` is the explicit raise at model.py lines 158-159 (the spec's
ConfigurationError) and `keyError` is a failed dict subscript such as
`threshold[parent_model]` at line 164. -/
inductive PyErr where
  | valueError
  | keyError
deriving DecidableEq

/-- Python dict assignment `d[k] = v` on an insertion-ordered dict: an
existing key keeps its position, a new key goes to the end. -/
def dictSet (d : Preds) (k : String) (v : Score) : Preds :=
  if d.any (fun p => p.1 = k) then
    d.map (fun p => if p.1 = k then (k, v) else p)
  else
    d ++ [(k, v)]

/-- Point update of the buffer map. -/
def updateBuf (b : Buffer) (k : String) (v : List Score) : Buffer :=
  fun s => if s = k then v else b s

/-- The buffer produced at construction (model.py line 70) and by
`Model.reset` (line 90): every label's sequence is empty. -/
def resetBuffer : Buffer := fun _ => []

/-- `deque(maxlen=m).append(x)`: push `x` at the right, keeping only the
last `m` entries. -/
def dequeAppend (maxlen : Nat) (q : List Score) (x : Score) : List Score :=
  (q ++ [x]).drop (q.length + 1 - maxlen)

/-- `raw.getD i 0` stands for the numpy subscript `prediction[0][0][i]`
(in-range for well-formed models, so the default is never observed in
well-formed runs). -/
def listGet (l : List Score) (i : Nat) : Score := l.getD i 0

/-- One pass of the buffer-update body for one label (model.py lines
146-148): zero the score if the label's buffer still has fewer than five
entries, then append the (possibly zeroed) score with `maxlen = 30`.
Returns the new buffer and the stored score. -/
def bufferStep (buf : Buffer) (label : String) (v : Score) : Buffer × Score :=
  let v2 := if (buf label).length < 5 then 0 else v
  (updateBuf buf label (dequeAppend 30 (buf label) v2), v2)

/-- The inner loop `for mdl in predictions.keys()` at model.py lines
145-148: iterate over every key accumulated in `predictions` so far,
applying the cold-start rule and appending into the buffer, writing the
stored score back into `predictions`.  (The `none` branch of the lookup is
unreachable: the iterated keys come from `preds` itself and `dictSet`
never removes a key.) -/
def coldAppendAll (buf : Buffer) (preds : Preds) : Buffer × Preds :=
  (preds.map Prod.fst).foldl
    (fun acc k =>
      match acc.2.lookup k with
      | none => acc
      | some v =>
        let s := bufferStep acc.1 k v
        (s.1, dictSet acc.2 k s.2))
    (buf, preds)

/-- Conversion of one model's raw output into `predictions` entries
(model.py lines 138-142): a single-output model writes one score under its
own name; otherwise each mapped class index writes its label.  (A
multi-output model whose mapping is a bare string would raise in Python;
registry construction never produces that shape, and the branch keeps
`preds` unchanged here.) -/
def modelPreds (m : Mdl) (raw : List Score) (preds : Preds) : Preds :=
  if m.model_outputs = 1 then
    dictSet preds m.name (listGet raw 0)
  else
    match m.class_mapping with
    | ClassMapping.binary _ => preds
    | ClassMapping.multi cm =>
        cm.foldl (fun ps p => dictSet ps p.2 (listGet raw p.1)) preds

/-- The scoring loop of `predict` (model.py lines 126-148): for each model
in registry order, convert its raw output into `predictions`, then run the
buffer-update loop over all predictions accumulated so far.  The nesting
of the buffer-update loop inside the per-model loop mirrors the source's
indentation exactly. -/
def predictRaw (models : List Mdl) (raw : String → List Score) (buf : Buffer) :
    Buffer × Preds :=
  models.foldl
    (fun acc m => coldAppendAll acc.1 (modelPreds m (raw m.name) acc.2))
    (buf, [])

/-- `Model.get_parent_model_from_label` (model.py lines 75-86): scan every
class mapping in registry order, remembering the model key for a dict
mapping containing the label and the mapped value itself for a string
mapping equal to the label; the initial accumulator is the empty string. -/
def get_parent_model_from_label (cm : List (String × ClassMapping))
    (label : String) : String :=
  cm.foldl
    (fun acc p =>
      match p.2 with
      | ClassMapping.multi m =>
          if (m.map Prod.snd).contains label then p.1 else acc
      | ClassMapping.binary s =>
          if label = s then s else acc)
    ""

/-- The `class_mapping` dict of a registry, in registry order. -/
def classMappingOf (models : List Mdl) : List (String × ClassMapping) :=
  models.map (fun m => (m.name, m.class_mapping))

/-- The Python slice `arr[-k:]`: for `k = 0` this is the whole array
(`arr[-0:] = arr[0:]`), otherwise the trailing `min(k, len)` entries. -/
def pyTailSlice (k : Nat) (l : List Score) : List Score :=
  if k = 0 then l else l.drop (l.length - k)

/-- The per-label debounce decision (model.py lines 160-165): look up the
label's parent model; a parent absent from `patience` passes the score
through; otherwise slice the trailing `patience[parent]` buffer entries,
count those `>= threshold[parent]` (a missing threshold key is a
`KeyError`), and force the score to 0 when the count is short. -/
def debounceScore (cm : List (String × ClassMapping)) (buf : Buffer)
    (patience : List (String × Nat)) (threshold : List (String × Score))
    (label : String) (v : Score) : Except PyErr Score :=
  let parent := get_parent_model_from_label cm label
  match patience.lookup parent with
  | none => Except.ok v
  | some k =>
    match threshold.lookup parent with
    | none => Except.error PyErr.keyError
    | some t =>
      if ((pyTailSlice k (buf label)).countP (fun s => decide (t ≤ s))) < k
      then Except.ok 0
      else Except.ok v

/-- The loop `for mdl in predictions.keys()` of the debounce block
(model.py lines 160-165): apply the per-label decision to every entry in
order; the first exception aborts the loop. -/
def debounceList (cm : List (String × ClassMapping)) (buf : Buffer)
    (patience : List (String × Nat)) (threshold : List (String × Score)) :
    Preds → Except PyErr Preds
  | [] => Except.ok []
  | p :: rest =>
    match debounceScore cm buf patience threshold p.1 p.2 with
    | Except.error e => Except.error e
    | Except.ok w =>
      match debounceList cm buf patience threshold rest with
      | Except.error e => Except.error e
      | Except.ok out => Except.ok ((p.1, w) :: out)

/-- The debounce block of `predict` (model.py lines 156-165): a no-op for
empty `patience`; an immediate `ValueError` for non-empty `patience` with
empty `threshold`; otherwise the per-label decision applied to every
`predictions` entry in order. -/
def applyDebounce (cm : List (String × ClassMapping)) (buf : Buffer)
    (patience : List (String × Nat)) (threshold : List (String × Score))
    (preds : Preds) : Except PyErr Preds :=
  if patience = [] then Except.ok preds
  else if threshold = [] then Except.error PyErr.valueError
  else debounceList cm buf patience threshold preds

/-- `Model.predict` (model.py lines 92-171) on one frame.  The opaque
feature extractor and ONNX sessions enter through `raw`, which gives each
model's raw output vector for this frame.  `timing` only selects between
the two identical return statements at lines 167-171 (the timing dict is
printed, never returned). -/
def predict (models : List Mdl) (raw : String → List Score)
    (patience : List (String × Nat)) (threshold : List (String × Score))
    (timing : Bool) (buf : Buffer) : Buffer × Except PyErr Preds :=
  let s := predictRaw models raw buf
  let res := applyDebounce (classMappingOf models) s.1 patience threshold s.2
  if timing then (s.1, res) else (s.1, res)

/-- `range(0, stop, step)` over naturals (start 0, positive step). -/
def pyRange (stop step : Nat) : List Nat :=
  (List.range ((stop + step - 1) / step)).map (fun i => i * step)

/-- The frame start offsets of `predict_clip`'s loop
`range(0, data.shape[0] - step_size, step_size)` with `step_size = 1280`
(model.py lines 201-202); natural subtraction truncates at 0 exactly as
Python's empty range does for non-positive stops. -/
def clipFrameStarts (dataLen : Nat) : List Nat :=
  pyRange (dataLen - 1280) 1280

/-- The padding step of `predict_clip` (model.py lines 190-197):
`if padding:` concatenates `16000 * padding` zero samples on both sides. -/
def padClip (data : List Int) (padding : Nat) : List Int :=
  if padding ≠ 0 then
    List.replicate (16000 * padding) 0 ++ data ++
      List.replicate (16000 * padding) 0
  else data

/-- `Model.predict_clip` (model.py lines 173-205): pad the decoded
samples, then call `predict` once per frame start in order, threading the
buffer and collecting the per-frame results; an exception aborts the whole
call.  `raw` gives, per frame start, each model's raw output vector. -/
def predict_clip (models : List Mdl) (raw : Nat → String → List Score)
    (data : List Int) (padding : Nat)
    (patience : List (String × Nat)) (threshold : List (String × Score))
    (timing : Bool) (buf : Buffer) : Except PyErr (Buffer × List Preds) :=
  (clipFrameStarts (padClip data padding).length).foldlM
    (fun acc i =>
      match predict models (raw i) patience threshold timing acc.1 with
      | (buf2, Except.ok p) => Except.ok (buf2, acc.2 ++ [p])
      | (_, Except.error e) => Except.error e)
    (buf, [])

/-- Python `str.lstrip(cs)` over characters: drop leading characters that
belong to `cs`. -/
def pyLStrip (cs : List Char) (s : List Char) : List Char :=
  s.dropWhile (fun c => cs.contains c)

/-- Python `str.strip(cs)` over characters: drop leading and trailing
characters that belong to `cs`. -/
def pyStrip (cs : List Char) (s : List Char) : List Char :=
  (pyLStrip cs (pyLStrip cs s).reverse).reverse

/-- The character set of the strip argument `".onnx"` at model.py
line 57. -/
def onnxChars : List Char := ".onnx".data

/-- The model-name derivation
`mdl_path.split(os.path.sep)[-1].strip(".onnx")` at model.py line 57. -/
def mdl_name_of_path (sep : Char) (path : List Char) : List Char :=
  pyStrip onnxChars ((path.splitOn sep).getLastD [])

/-- A sequence of buffer-update passes for one label, as performed by
successive appends through `bufferStep`. -/
def appendTrace (label : String) (vs : List Score) (buf : Buffer) : Buffer :=
  vs.foldl (fun b v => (bufferStep b label v).1) buf

/-- The reference reading of `get_parent_model_from_label`'s scan for one
registry entry: the entry matches when its mapping contains the label, and
the name it contributes is the model key for a dict mapping and the mapped
string itself for a string mapping. -/
def matchName (label : String) (e : String × ClassMapping) : Option String :=
  match e.2 with
  | ClassMapping.binary s => if label = s then some s else none
  | ClassMapping.multi m =>
      if (m.map Prod.snd).contains label then some e.1 else none

instance {ε α : Type} [DecidableEq ε] [DecidableEq α] :
    DecidableEq (Except ε α)
  | Except.ok a, Except.ok b =>
    match decEq a b with
    | isTrue h => isTrue (by rw [h])
    | isFalse h => isFalse (fun hh => h (Except.ok.inj hh))
  | Except.ok _, Except.error _ => isFalse (fun hh => Except.noConfusion hh)
  | Except.error _, Except.ok _ => isFalse (fun hh => Except.noConfusion hh)
  | Except.error e, Except.error f =>
    match decEq e f with
    | isTrue h => isTrue (by rw [h])
    | isFalse h => isFalse (fun hh => h (Except.error.inj hh))

/-- The scan of `get_parent_model_from_label`, started from an arbitrary
accumulator, returns the name contributed by the last matching registry
entry, or the accumulator when no entry matches. -/
theorem get_parent_foldl_eq (label : String) (cm : List (String × ClassMapping)) :
    ∀ acc : String,
      cm.foldl
        (fun acc p =>
          match p.2 with
          | ClassMapping.multi m =>
              if (m.map Prod.snd).contains label then p.1 else acc
          | ClassMapping.binary s =>
              if label = s then s else acc)
        acc
      = (cm.filterMap (matchName label)).getLastD acc := by
  induction cm with
  | nil => intro acc; simp
  | cons hd tl ih =>
    intro acc
    rcases hd with ⟨k, cmap⟩
    rw [List.foldl_cons, List.filterMap_cons]
    cases cmap with
    | multi m =>
      cases hc : (m.map Prod.snd).contains label with
      | true =>
        simp only [matchName, hc, eq_self_iff_true, if_true]
        rw [List.getLastD_cons]
        exact ih k
      | false =>
        simp only [matchName, hc]
        rw [if_neg (by simp)]
        exact ih acc
    | binary s =>
      by_cases hs : label = s
      · subst hs
        simp only [matchName, eq_self_iff_true, if_true]
        rw [List.getLastD_cons]
        exact ih label
      · simp only [matchName, if_neg hs]
        exact ih acc

/-- C8: the `timing` flag selects between two identical return statements;
for every starting buffer, registry, raw output and patience/threshold
arguments, `predict` with `timing = true` returns exactly the same buffer
state and scores as with `timing = false`. -/
theorem C8_timing_no_effect (models : List Mdl) (raw : String → List Score)
    (patience : List (String × Nat)) (threshold : List (String × Score))
    (buf : Buffer) :
    predict models raw patience threshold true buf
      = predict models raw patience threshold false buf := rfl

/-- C4: evaluation of the code at the failing input.  With two registered
binary models and one `predict` call from fresh buffers, the first model's
label is appended twice (buffer length 2 after one frame) while the second
model's label is appended once, because the buffer-update loop at model.py
lines 145-148 is nested inside the per-model loop and iterates over all
predictions accumulated so far; the claim (and spec step 3) say every
label's buffer grows by exactly one entry per call. -/
theorem C4_nested_append_eval :
    ((predict [⟨"a", 1, ClassMapping.binary "a"⟩, ⟨"b", 1, ClassMapping.binary "b"⟩]
        (fun _ => [7/10]) [] [] false resetBuffer).1 "a").length = 2
    ∧ ((predict [⟨"a", 1, ClassMapping.binary "a"⟩, ⟨"b", 1, ClassMapping.binary "b"⟩]
        (fun _ => [7/10]) [] [] false resetBuffer).1 "b").length = 1 := by
  decide

/-- C3 counterexample: a `predict` call whose non-empty `patience` has a
key with no matching key in the non-empty `threshold` fails with a
`KeyError` from the subscript `threshold[parent_model]` at model.py line
164, not with the `ValueError` (the spec's ConfigurationError) of lines
158-159, refuting the claim that every violation of
`keys(patience) ⊆ keys(threshold)` raises ConfigurationError. -/
theorem C3_counterexample :
    (predict [⟨"alexa", 1, ClassMapping.binary "alexa"⟩] (fun _ => [7/10])
      [("alexa", 1)] [("other", 1/2)] false resetBuffer).2
      = Except.error PyErr.keyError
    ∧ (predict [⟨"alexa", 1, ClassMapping.binary "alexa"⟩] (fun _ => [7/10])
      [("alexa", 1)] [("other", 1/2)] false resetBuffer).2
      ≠ Except.error PyErr.valueError := by
  decide

/-- C6 counterexample: when a label occurs in two loaded mappings,
`get_parent_model_from_label` keeps overwriting its accumulator and
returns the second (last) matching model, not the first as the claim
states. -/
theorem C6_counterexample :
    get_parent_model_from_label
      [("m1", ClassMapping.multi [(0, "x")]), ("m2", ClassMapping.multi [(0, "x")])] "x"
      = "m2"
    ∧ get_parent_model_from_label
      [("m1", ClassMapping.multi [(0, "x")]), ("m2", ClassMapping.multi [(0, "x")])] "x"
      ≠ "m1" := by
  decide

/-- C6 (amended): `get_parent_model_from_label` performs a reverse lookup
across all loaded label mappings; the owning entry found is the last match
in registry order (for a dict mapping the model key, for a string mapping
the mapped string, which is the model's own name for registry-built binary
models), and when no loaded mapping contains the label the empty string,
the code's none sentinel, is returned. -/
theorem C6_last_match (cm : List (String × ClassMapping)) (label : String) :
    get_parent_model_from_label cm label
      = (cm.filterMap (matchName label)).getLastD "" := by
  unfold get_parent_model_from_label
  exact get_parent_foldl_eq label cm ""

/-- While a label's buffer holds only zeros and stays under the cold-start
bound, every further append through `bufferStep` stores another zero. -/
theorem appendTrace_cold (label : String) :
    ∀ (vs : List Score) (b : Buffer) (m : Nat),
      b label = List.replicate m 0 → m + vs.length ≤ 5 →
      appendTrace label vs b label = List.replicate (m + vs.length) 0 := by
  intro vs
  induction vs with
  | nil => intro b m hb _; simpa [appendTrace] using hb
  | cons v vs ih =>
    intro b m hb hle
    have hlen : (b label).length = m := by rw [hb]; simp
    have hm : m < 5 := by simp at hle; omega
    have hfold : appendTrace label (v :: vs) b
        = appendTrace label vs (bufferStep b label v).1 := by
      simp [appendTrace]
    have hstep : (bufferStep b label v).1 label = List.replicate (m + 1) 0 := by
      have h30 : m + 1 - 30 = 0 := by omega
      simp only [bufferStep, updateBuf, dequeAppend, hb, List.length_replicate,
        eq_self_iff_true, if_true, hm, h30, List.drop_zero]
      rw [List.replicate_succ']
    rw [hfold, ih (bufferStep b label v).1 (m + 1) hstep (by simp at hle ⊢; omega)]
    congr 1
    simp
    omega

/-- C2: the cold-start rule.  An append through `bufferStep` whose buffer
currently holds fewer than 5 entries stores 0 instead of the raw score;
`reset` (and construction) gives every label an empty buffer; and hence
the first up-to-5 scores appended to a label's buffer after reset are all
exactly 0 regardless of the raw values. -/
theorem C2_cold_start_zeroing (label : String) (vs : List Score) (buf : Buffer)
    (v : Score) (hlen : vs.length ≤ 5) (h5 : (buf label).length < 5) :
    appendTrace label vs resetBuffer label = List.replicate vs.length 0
    ∧ (bufferStep buf label v).2 = 0
    ∧ resetBuffer label = [] := by
  refine ⟨?_, ?_, rfl⟩
  · have h := appendTrace_cold label vs resetBuffer 0 (by rfl) (by simpa)
    simpa using h
  · simp [bufferStep, h5]

/-- C2 witness: three appends of raw score 1 after reset store three
zeros, one append of raw score 7 on a fresh buffer stores 0, and the reset
buffer is empty for label a. -/
theorem C2_cold_start_zeroing_witness :
    appendTrace "a" [1, 1, 1] resetBuffer "a" = List.replicate 3 0
    ∧ (bufferStep resetBuffer "a" 7).2 = 0
    ∧ resetBuffer "a" = [] := by
  have h := C2_cold_start_zeroing "a" [1, 1, 1] resetBuffer 7 (by decide)
    (by simp [resetBuffer])
  simpa using h

/-- C5: capacity-30 FIFO characterization.  Appending any sequence of raw
scores for a label through `bufferStep` (the append operation of
`predict`) starting from the reset buffer yields exactly the stored-score
sequence (first five appends masked to 0) truncated to its last 30
entries: insertion order equals temporal order, the buffer never exceeds
30 entries, and from the 31st append on each append evicts the oldest
entry. -/
theorem C5_capacity_fifo (label : String) (vs : List Score) :
    appendTrace label vs resetBuffer label
      = (List.replicate (min 5 vs.length) 0 ++ vs.drop 5).drop (vs.length - 30)
    ∧ (appendTrace label vs resetBuffer label).length ≤ 30 := by
  have key : ∀ ws : List Score, appendTrace label ws resetBuffer label
      = (List.replicate (min 5 ws.length) 0 ++ ws.drop 5).drop (ws.length - 30) := by
    intro ws
    induction ws using List.reverseRecOn with
    | nil => simp [appendTrace, resetBuffer]
    | append_singleton ws v ih =>
      have hfold : appendTrace label (ws ++ [v]) resetBuffer label
          = (bufferStep (appendTrace label ws resetBuffer) label v).1 label := by
        simp [appendTrace, List.foldl_append]
      have hstep : (bufferStep (appendTrace label ws resetBuffer) label v).1 label
          = dequeAppend 30 (appendTrace label ws resetBuffer label)
              (if (appendTrace label ws resetBuffer label).length < 5 then 0 else v) := by
        simp [bufferStep, updateBuf]
      rw [hfold, hstep, ih]
      simp only [List.length_append, List.length_singleton]
      rcases Nat.lt_or_ge ws.length 5 with h5 | h5
      · -- still in the cold-start window: store 0, no eviction
        have hD : List.drop (ws.length - 30)
            (List.replicate (min 5 ws.length) (0 : Score) ++ List.drop 5 ws)
            = List.replicate ws.length 0 := by
          have h1 : List.drop 5 ws = [] := List.drop_eq_nil_of_le (by omega)
          have h2 : min 5 ws.length = ws.length := by omega
          have h3 : ws.length - 30 = 0 := by omega
          rw [h1, h2, h3, List.append_nil, List.drop_zero]
        rw [hD]
        have hif : (if (List.replicate ws.length (0 : Score)).length < 5
            then (0 : Score) else v) = 0 := by
          rw [List.length_replicate, if_pos (by omega)]
        rw [hif, dequeAppend, List.length_replicate]
        have h4 : ws.length + 1 - 30 = 0 := by omega
        rw [h4, List.drop_zero, List.drop_zero]
        have h6 : List.drop 5 (ws ++ [v]) = [] :=
          List.drop_eq_nil_of_le (by simp; omega)
        have h7 : min 5 (ws.length + 1) = ws.length + 1 := by omega
        rw [h6, h7, List.append_nil, ← List.replicate_succ']
      · -- past the cold-start window: store the raw score
        have hm1 : min 5 ws.length = 5 := by omega
        have hm2 : min 5 (ws.length + 1) = 5 := by omega
        have hS1 : List.drop 5 (ws ++ [v]) = List.drop 5 ws ++ [v] :=
          List.drop_append_of_le_length h5
        rw [hm1, hm2, hS1]
        have hSlen5 : (List.replicate 5 (0 : Score) ++ List.drop 5 ws).length
            = ws.length := by
          simp
          omega
        have hDlen5 : (List.drop (ws.length - 30)
            (List.replicate 5 (0 : Score) ++ List.drop 5 ws)).length
            = ws.length - (ws.length - 30) := by
          rw [List.length_drop, hSlen5]
        have hif : (if (List.drop (ws.length - 30)
            (List.replicate 5 (0 : Score) ++ List.drop 5 ws)).length < 5
            then (0 : Score) else v) = v := by
          rw [hDlen5, if_neg (by omega)]
        rw [hif, dequeAppend, hDlen5]
        rcases Nat.lt_or_ge ws.length 30 with h30 | h30
        · have h2 : ws.length - (ws.length - 30) + 1 - 30 = 0 := by omega
          have h1 : ws.length - 30 = 0 := by omega
          have h3 : ws.length + 1 - 30 = 0 := by omega
          rw [h2, h1, h3, List.drop_zero, List.drop_zero, List.drop_zero,
            List.append_assoc]
        · have h2 : ws.length - (ws.length - 30) + 1 - 30 = 1 := by omega
          rw [h2]
          have h1le : 1 ≤ (List.drop (ws.length - 30)
              (List.replicate 5 (0 : Score) ++ List.drop 5 ws)).length := by
            rw [hDlen5]
            omega
          rw [List.drop_append_of_le_length h1le, List.drop_drop]
          have hd4 : ws.length - 30 + 1 = ws.length + 1 - 30 := by omega
          rw [hd4]
          have h5le : ws.length + 1 - 30
              ≤ (List.replicate 5 (0 : Score) ++ List.drop 5 ws).length := by
            rw [hSlen5]
            omega
          rw [← List.append_assoc, List.drop_append_of_le_length h5le]
  refine ⟨key vs, ?_⟩
  rw [key vs, List.length_drop]
  simp
  omega

/-- A successful lookup in an association list locates a member pair. -/
theorem lookup_mem {β : Type} : ∀ (l : List (String × β)) (a : String) (b : β),
    l.lookup a = some b → (a, b) ∈ l := by
  intro l
  induction l with
  | nil => intro a b h; simp [List.lookup] at h
  | cons p rest ih =>
    intro a b h
    rcases p with ⟨k, x⟩
    rw [List.lookup] at h
    by_cases hk : a = k
    · subst hk
      simp at h
      subst h
      exact List.mem_cons_self (a, x) rest
    · have hbeq : (a == k) = false := beq_false_of_ne hk
      rw [hbeq] at h
      exact List.mem_cons_of_mem _ (ih a b h)

/-- When the per-entry debounce loop succeeds, each looked-up input entry
corresponds to a successfully debounced output entry under the same
label. -/
theorem debounceList_lookup (cm : List (String × ClassMapping)) (buf : Buffer)
    (patience : List (String × Nat)) (threshold : List (String × Score)) :
    ∀ (preds out : Preds),
      debounceList cm buf patience threshold preds = Except.ok out →
      ∀ label v, preds.lookup label = some v →
      ∃ w, debounceScore cm buf patience threshold label v = Except.ok w
        ∧ out.lookup label = some w := by
  intro preds
  induction preds with
  | nil => intro out h label v hv; simp [List.lookup] at hv
  | cons p rest ih =>
    intro out h label v hv
    rcases p with ⟨k, x⟩
    rw [debounceList] at h
    rcases hk : debounceScore cm buf patience threshold k x with e | w0 <;> rw [hk] at h
    · exact absurd h (by simp)
    · rcases hrest : debounceList cm buf patience threshold rest with e2 | out2 <;>
        rw [hrest] at h
      · exact absurd h (by simp)
      · have hout : out = (k, w0) :: out2 := by
          injection h with h2
          exact h2.symm
        subst hout
        rw [List.lookup] at hv
        by_cases hlk : label = k
        · subst hlk
          simp at hv
          subst hv
          refine ⟨w0, hk, ?_⟩
          rw [List.lookup]
          simp
        · have hbeq : (label == k) = false := beq_false_of_ne hlk
          rw [hbeq] at hv
          obtain ⟨w, hw1, hw2⟩ := ih out2 hrest label v hv
          refine ⟨w, hw1, ?_⟩
          rw [List.lookup, hbeq]
          exact hw2

/-- C1: for every `predict` call with non-empty `patience` that returns
scores, each returned label whose parent model has entries `k` in
`patience` and `t` in `threshold` gets the value 0 when fewer than `k` of
the trailing `k` entries of its (just-updated) buffer are `>= t`, and its
pre-debounce score unchanged otherwise; each returned label whose parent
model is not a key of `patience` gets its pre-debounce score unmodified. -/
theorem C1_debounce (models : List Mdl) (raw : String → List Score)
    (patience : List (String × Nat)) (threshold : List (String × Score))
    (timing : Bool) (buf0 : Buffer) (label : String) (v : Score) (out : Preds)
    (hp : patience ≠ [])
    (hv : (predictRaw models raw buf0).2.lookup label = some v)
    (hok : (predict models raw patience threshold timing buf0).2 = Except.ok out) :
    (∀ k t,
      patience.lookup (get_parent_model_from_label (classMappingOf models) label)
        = some k →
      threshold.lookup (get_parent_model_from_label (classMappingOf models) label)
        = some t →
      out.lookup label = some (if
        ((pyTailSlice k ((predictRaw models raw buf0).1 label)).countP
          (fun s => decide (t ≤ s))) < k
        then 0 else v))
    ∧ (patience.lookup (get_parent_model_from_label (classMappingOf models) label)
        = none →
      out.lookup label = some v) := by
  have hres : applyDebounce (classMappingOf models) (predictRaw models raw buf0).1
      patience threshold (predictRaw models raw buf0).2 = Except.ok out := by
    cases timing <;> simpa [predict] using hok
  rw [applyDebounce, if_neg hp] at hres
  by_cases ht : threshold = []
  · rw [if_pos ht] at hres
    exact absurd hres (by simp)
  · rw [if_neg ht] at hres
    obtain ⟨w, hw1, hw2⟩ := debounceList_lookup (classMappingOf models)
      (predictRaw models raw buf0).1 patience threshold
      (predictRaw models raw buf0).2 out hres label v hv
    constructor
    · intro k t hk ht2
      rw [debounceScore] at hw1
      simp only [hk, ht2] at hw1
      by_cases hcount : ((pyTailSlice k ((predictRaw models raw buf0).1 label)).countP
          (fun s => decide (t ≤ s))) < k
      · rw [if_pos hcount] at hw1 ⊢
        rw [hw2]
        injection hw1 with h0
        rw [h0]
      · rw [if_neg hcount] at hw1 ⊢
        rw [hw2]
        injection hw1 with h0
        rw [h0]
    · intro hk
      rw [debounceScore] at hw1
      simp only [hk] at hw1
      rw [hw2]
      injection hw1 with h0
      rw [h0]

/-- C1 witness: one binary model named a from a fresh buffer with raw
score 7 (cold-zeroed to 0), patience 1 and threshold 1: the debounced
output for label a equals the value the theorem predicts. -/
theorem C1_debounce_witness :
    ([("a", (0 : Score))] : Preds).lookup "a"
      = some (if ((pyTailSlice 1
          ((predictRaw [⟨"a", 1, ClassMapping.binary "a"⟩]
            (fun _ => [7]) resetBuffer).1 "a")).countP
          (fun s => decide ((1 : Score) ≤ s))) < 1
        then 0 else (0 : Score)) := by
  exact (C1_debounce [⟨"a", 1, ClassMapping.binary "a"⟩] (fun _ => [7])
    [("a", 1)] [("a", 1)] false resetBuffer "a" 0 [("a", 0)]
    (by decide) (by decide) (by decide)).1 1 1 (by decide) (by decide)

/-- Every exception `debounceScore` can raise is a `KeyError`. -/
theorem debounceScore_error_keyError (cm : List (String × ClassMapping))
    (buf : Buffer) (patience : List (String × Nat))
    (threshold : List (String × Score)) (label : String) (v : Score) (e : PyErr)
    (h : debounceScore cm buf patience threshold label v = Except.error e) :
    e = PyErr.keyError := by
  rw [debounceScore] at h
  rcases hp : patience.lookup (get_parent_model_from_label cm label) with _ | k <;>
    simp only [hp] at h
  · exact absurd h (by simp)
  · rcases ht : threshold.lookup (get_parent_model_from_label cm label) with _ | t <;>
      simp only [ht] at h
    · injection h with h2
      exact h2.symm
    · by_cases hc : ((pyTailSlice k (buf label)).countP (fun s => decide (t ≤ s))) < k
      · rw [if_pos hc] at h
        exact absurd h (by simp)
      · rw [if_neg hc] at h
        exact absurd h (by simp)

/-- When some entry of the predictions dict raises in the debounce loop,
the loop's result is a `KeyError`. -/
theorem debounceList_keyError (cm : List (String × ClassMapping)) (buf : Buffer)
    (patience : List (String × Nat)) (threshold : List (String × Score)) :
    ∀ preds : Preds,
      (∃ kk vv e, (kk, vv) ∈ preds
        ∧ debounceScore cm buf patience threshold kk vv = Except.error e) →
      debounceList cm buf patience threshold preds
        = Except.error PyErr.keyError := by
  intro preds
  induction preds with
  | nil => intro h; obtain ⟨kk, vv, e, hp, _⟩ := h; simp at hp
  | cons p rest ih =>
    intro h
    rcases p with ⟨k, x⟩
    rw [debounceList]
    rcases hk : debounceScore cm buf patience threshold k x with e | w0
    · have he := debounceScore_error_keyError cm buf patience threshold k x e hk
      rw [he]
    · obtain ⟨kk, vv, e2, hq, he2⟩ := h
      rcases List.mem_cons.mp hq with hhead | htail
      · exfalso
        injection hhead with h1 h2
        rw [h1, h2] at he2
        rw [he2] at hk
        exact Except.noConfusion hk
      · rw [ih ⟨kk, vv, e2, htail, he2⟩]

/-- A label whose parent model is absent from `patience`, or whose parent
model has a `threshold` entry, never raises in the per-label debounce
decision. -/
theorem debounceScore_ok (cm : List (String × ClassMapping)) (buf : Buffer)
    (patience : List (String × Nat)) (threshold : List (String × Score))
    (kk : String) (vv : Score)
    (h : patience.lookup (get_parent_model_from_label cm kk) = none
      ∨ ∃ t0, threshold.lookup (get_parent_model_from_label cm kk) = some t0) :
    ∃ w, debounceScore cm buf patience threshold kk vv = Except.ok w := by
  rw [debounceScore]
  rcases hp : patience.lookup (get_parent_model_from_label cm kk) with _ | k
  · simp only [hp]
    exact ⟨vv, rfl⟩
  · rcases h with h0 | ⟨t0, ht0⟩
    · rw [hp] at h0
      exact absurd h0 (by simp)
    · simp only [hp, ht0]
      by_cases hc : ((pyTailSlice k (buf kk)).countP (fun s => decide (t0 ≤ s))) < k
      · rw [if_pos hc]
        exact ⟨0, rfl⟩
      · rw [if_neg hc]
        exact ⟨vv, rfl⟩

/-- When every entry of the predictions dict debounces without raising,
the debounce loop over the whole dict succeeds. -/
theorem debounceList_ok (cm : List (String × ClassMapping)) (buf : Buffer)
    (patience : List (String × Nat)) (threshold : List (String × Score)) :
    ∀ preds : Preds,
      (∀ kk vv, (kk, vv) ∈ preds →
        ∃ w, debounceScore cm buf patience threshold kk vv = Except.ok w) →
      ∃ out, debounceList cm buf patience threshold preds = Except.ok out := by
  intro preds
  induction preds with
  | nil => intro _; exact ⟨[], rfl⟩
  | cons p rest ih =>
    intro h
    rw [debounceList]
    obtain ⟨w, hw⟩ := h p.1 p.2 (by rw [Prod.mk.eta]; exact List.mem_cons_self p rest)
    obtain ⟨out2, hout2⟩ := ih (fun kk vv hm => h kk vv (List.mem_cons_of_mem p hm))
    rw [hw, hout2]
    exact ⟨(p.1, w) :: out2, rfl⟩

/-- C3 (amended): with non-empty `patience`, an empty `threshold` always
fails with the ConfigurationError (`ValueError`); with non-empty
`threshold`, a returned label whose parent model is a key of `patience`
but not of `threshold` makes the call fail with `KeyError` instead; and
when every returned label's parent model is either absent from `patience`
or covered by `threshold`, a patience key missing from `threshold` goes
undetected and the call completes normally. -/
theorem C3_amended (models : List Mdl) (raw : String → List Score)
    (patience : List (String × Nat)) (threshold : List (String × Score))
    (timing : Bool) (buf : Buffer) (hp : patience ≠ []) :
    (threshold = [] →
      (predict models raw patience threshold timing buf).2
        = Except.error PyErr.valueError)
    ∧ (∀ label v,
        threshold ≠ [] →
        (predictRaw models raw buf).2.lookup label = some v →
        patience.lookup (get_parent_model_from_label (classMappingOf models) label)
          ≠ none →
        threshold.lookup (get_parent_model_from_label (classMappingOf models) label)
          = none →
        (predict models raw patience threshold timing buf).2
          = Except.error PyErr.keyError)
    ∧ (threshold ≠ [] →
        (∀ kk vv, (kk, vv) ∈ (predictRaw models raw buf).2 →
          patience.lookup (get_parent_model_from_label (classMappingOf models) kk)
            = none
          ∨ ∃ t0, threshold.lookup
              (get_parent_model_from_label (classMappingOf models) kk) = some t0) →
        ∃ out, (predict models raw patience threshold timing buf).2
          = Except.ok out) := by
  refine ⟨?_, ?_, ?_⟩
  · intro ht
    cases timing <;> simp [predict, applyDebounce, hp, ht]
  · intro label v ht hv hpk htk
    have hscore : debounceScore (classMappingOf models) (predictRaw models raw buf).1
        patience threshold label v = Except.error PyErr.keyError := by
      rw [debounceScore]
      rcases hp2 : patience.lookup (get_parent_model_from_label
          (classMappingOf models) label) with _ | k
      · exact absurd hp2 hpk
      · rw [htk]
    have hmem : (label, v) ∈ (predictRaw models raw buf).2 :=
      lookup_mem (predictRaw models raw buf).2 label v hv
    have hlist := debounceList_keyError (classMappingOf models)
      (predictRaw models raw buf).1 patience threshold
      (predictRaw models raw buf).2 ⟨label, v, PyErr.keyError, hmem, hscore⟩
    cases timing <;> simp [predict, applyDebounce, hp, ht, hlist]
  · intro ht hcover
    obtain ⟨out, hout⟩ := debounceList_ok (classMappingOf models)
      (predictRaw models raw buf).1 patience threshold
      (predictRaw models raw buf).2
      (fun kk vv hm => debounceScore_ok (classMappingOf models)
        (predictRaw models raw buf).1 patience threshold kk vv (hcover kk vv hm))
    refine ⟨out, ?_⟩
    cases timing <;> simp [predict, applyDebounce, hp, ht, hout]

/-- C3 witness: with one binary model named alexa, patience on alexa with
an empty threshold map yields the ValueError; patience on alexa with a
threshold map lacking the alexa key yields the KeyError; and patience on
the key ghost, which matches no returned label's parent, with the same
incomplete threshold map completes normally. -/
theorem C3_amended_witness :
    (predict [⟨"alexa", 1, ClassMapping.binary "alexa"⟩] (fun _ => [7])
      [("alexa", 1)] [] false resetBuffer).2 = Except.error PyErr.valueError
    ∧ (predict [⟨"alexa", 1, ClassMapping.binary "alexa"⟩] (fun _ => [7])
      [("alexa", 1)] [("other", 1)] false resetBuffer).2
      = Except.error PyErr.keyError
    ∧ ∃ out, (predict [⟨"alexa", 1, ClassMapping.binary "alexa"⟩] (fun _ => [7])
      [("ghost", 1)] [("other", 1)] false resetBuffer).2 = Except.ok out := by
  refine ⟨?_, ?_, ?_⟩
  · exact (C3_amended [⟨"alexa", 1, ClassMapping.binary "alexa"⟩] (fun _ => [7])
      [("alexa", 1)] [] false resetBuffer (by decide)).1 rfl
  · exact (C3_amended [⟨"alexa", 1, ClassMapping.binary "alexa"⟩] (fun _ => [7])
      [("alexa", 1)] [("other", 1)] false resetBuffer (by decide)).2.1 "alexa" 0
      (by decide) (by decide) (by decide) (by decide)
  · refine (C3_amended [⟨"alexa", 1, ClassMapping.binary "alexa"⟩] (fun _ => [7])
      [("ghost", 1)] [("other", 1)] false resetBuffer (by decide)).2.2
      (by decide) ?_
    intro kk vv hm
    have hpr : (predictRaw [⟨"alexa", 1, ClassMapping.binary "alexa"⟩]
        (fun _ => [7]) resetBuffer).2 = [("alexa", 0)] := by decide
    rw [hpr] at hm
    simp only [List.mem_singleton, Prod.mk.injEq] at hm
    rw [hm.1]
    left
    decide

/-- With empty `patience`, `predict` never raises: it returns the updated
buffer and the raw (cold-start-adjusted) predictions unchanged. -/
theorem predict_empty_patience (models : List Mdl) (raw : String → List Score)
    (threshold : List (String × Score)) (timing : Bool) (buf : Buffer) :
    predict models raw [] threshold timing buf
      = ((predictRaw models raw buf).1,
         Except.ok (predictRaw models raw buf).2) := by
  cases timing <;> simp [predict, applyDebounce]

/-- The frame loop of `predict_clip` with empty `patience` always
succeeds and produces exactly one result mapping per frame start. -/
theorem predict_clip_empty_patience (models : List Mdl)
    (raw : Nat → String → List Score) (data : List Int) (padding : Nat)
    (threshold : List (String × Score)) (timing : Bool) (buf : Buffer) :
    ∃ res, predict_clip models raw data padding [] threshold timing buf
        = Except.ok res
      ∧ res.2.length = (clipFrameStarts (padClip data padding).length).length := by
  have h : ∀ (starts : List Nat) (b : Buffer) (acc : List Preds),
      ∃ res, starts.foldlM
        (fun acc i =>
          match predict models (raw i) [] threshold timing acc.1 with
          | (buf2, Except.ok p) => Except.ok (buf2, acc.2 ++ [p])
          | (_, Except.error e) => Except.error e)
        ((b, acc) : Buffer × List Preds) = Except.ok res
        ∧ res.2.length = acc.length + starts.length := by
    intro starts
    induction starts with
    | nil => intro b acc; exact ⟨(b, acc), rfl, by simp⟩
    | cons i rest ih =>
      intro b acc
      rw [List.foldlM_cons, predict_empty_patience]
      obtain ⟨res, hres, hlen⟩ := ih (predictRaw models (raw i) b).1 (acc ++ [(predictRaw models (raw i) b).2])
      refine ⟨res, ?_, ?_⟩
      · simpa using hres
      · rw [hlen]
        simp
        omega
  obtain ⟨res, hres, hlen⟩ := h (clipFrameStarts (padClip data padding).length) buf []
  refine ⟨res, ?_, ?_⟩
  · rw [predict_clip]
    exact hres
  · rw [hlen]
    simp

/-- C7: a clip of exactly N whole 1280-sample frames plus a non-empty
sub-frame remainder, with zero padding, is partitioned at fixed stride
1280 into the N full frame starts in order; the trailing partial frame is
dropped and `predict_clip` returns exactly N result mappings. -/
theorem C7_clip_partition (models : List Mdl) (raw : Nat → String → List Score)
    (data : List Int) (threshold : List (String × Score)) (timing : Bool)
    (buf : Buffer) (N r : Nat)
    (hlen : data.length = N * 1280 + r) (hr0 : 0 < r) (hr1 : r < 1280) :
    ∃ res, predict_clip models raw data 0 [] threshold timing buf = Except.ok res
      ∧ res.2.length = N
      ∧ clipFrameStarts (padClip data 0).length
        = (List.range N).map (fun i => i * 1280) := by
  have hpad : padClip data 0 = data := by simp [padClip]
  have hstarts : clipFrameStarts (padClip data 0).length
      = (List.range N).map (fun i => i * 1280) := by
    rw [hpad, hlen, clipFrameStarts, pyRange]
    congr 2
    omega
  obtain ⟨res, h1, h2⟩ :=
    predict_clip_empty_patience models raw data 0 threshold timing buf
  refine ⟨res, h1, ?_, hstarts⟩
  rw [h2, hstarts]
  simp

/-- C7 witness: a 1281-sample clip (one whole frame plus one extra
sample), zero padding and no registered models produces exactly one
result mapping from the single frame start 0. -/
theorem C7_clip_partition_witness :
    ∃ res, predict_clip [] (fun _ _ => []) (List.replicate 1281 (0 : Int)) 0 []
        [] false resetBuffer = Except.ok res
      ∧ res.2.length = 1
      ∧ clipFrameStarts (padClip (List.replicate 1281 (0 : Int)) 0).length
        = (List.range 1).map (fun i => i * 1280) := by
  exact C7_clip_partition [] (fun _ _ => []) (List.replicate 1281 (0 : Int)) []
    false resetBuffer 1 1 (by rw [List.length_replicate]) (by decide) (by decide)

/-- C9: a clip whose padded sample data is exactly N whole 1280-sample
frames makes the loop `range(0, length - 1280, 1280)` stop one frame
early: only the first N - 1 frame starts are visited, the start of the
final full frame is never among them, and `predict_clip` returns only
N - 1 result mappings. -/
theorem C9_last_full_frame_dropped (models : List Mdl)
    (raw : Nat → String → List Score) (data : List Int)
    (threshold : List (String × Score)) (timing : Bool) (buf : Buffer) (N : Nat)
    (hN : 1 ≤ N) (hlen : data.length = N * 1280) :
    ∃ res, predict_clip models raw data 0 [] threshold timing buf = Except.ok res
      ∧ res.2.length = N - 1
      ∧ clipFrameStarts (padClip data 0).length
        = (List.range (N - 1)).map (fun i => i * 1280)
      ∧ (N - 1) * 1280 ∉ clipFrameStarts (padClip data 0).length := by
  have hpad : padClip data 0 = data := by simp [padClip]
  have hstarts : clipFrameStarts (padClip data 0).length
      = (List.range (N - 1)).map (fun i => i * 1280) := by
    rw [hpad, hlen, clipFrameStarts, pyRange]
    congr 2
    omega
  obtain ⟨res, h1, h2⟩ :=
    predict_clip_empty_patience models raw data 0 threshold timing buf
  refine ⟨res, h1, ?_, hstarts, ?_⟩
  · rw [h2, hstarts]
    simp
  · rw [hstarts]
    simp only [List.mem_map, List.mem_range]
    rintro ⟨i, hi, hieq⟩
    omega

/-- C9 witness: a clip of exactly two whole frames (2560 samples), zero
padding and no registered models yields a single result mapping; the
second frame's start 1280 is never visited. -/
theorem C9_last_full_frame_dropped_witness :
    ∃ res, predict_clip [] (fun _ _ => []) (List.replicate 2560 (0 : Int)) 0 []
        [] false resetBuffer = Except.ok res
      ∧ res.2.length = 2 - 1
      ∧ clipFrameStarts (padClip (List.replicate 2560 (0 : Int)) 0).length
        = (List.range (2 - 1)).map (fun i => i * 1280)
      ∧ (2 - 1) * 1280
        ∉ clipFrameStarts (padClip (List.replicate 2560 (0 : Int)) 0).length := by
  exact C9_last_full_frame_dropped [] (fun _ _ => []) (List.replicate 2560 (0 : Int))
    [] false resetBuffer 2 (by decide) (by rw [List.length_replicate])

/-- Dropping while over a leading block whose characters all match skips
the whole block. -/
theorem dropWhile_skip_all (p : Char → Bool) (l1 l2 : List Char)
    (h : ∀ c ∈ l1, p c = true) :
    List.dropWhile p (l1 ++ l2) = List.dropWhile p l2 := by
  induction l1 with
  | nil => simp
  | cons c rest ih =>
    rw [List.cons_append, List.dropWhile_cons, if_pos (h c (by simp))]
    exact ih (fun d hd => h d (by simp [hd]))

/-- Dropping while over a list whose first character matches strictly
shortens it. -/
theorem dropWhile_head_length (p : Char → Bool) (c : Char) (l : List Char)
    (hh : l.head? = some c) (hp : p c = true) :
    (List.dropWhile p l).length + 1 ≤ l.length := by
  cases l with
  | nil => exact absurd hh (by simp)
  | cons a tl =>
    rw [List.head?_cons] at hh
    have hac : a = c := Option.some.inj hh
    rw [List.dropWhile_cons, if_pos (by rw [hac]; exact hp)]
    have hle := (List.dropWhile_suffix (l := tl) p).length_le
    simp only [List.length_cons]
    omega

/-- C10: `str.strip(".onnx")` mangles names.  For every path whose final
component is a basename `stem ++ ".onnx"` where the stem is non-empty and
begins or ends with one of the characters of the set of `".onnx"`, the
derived model name differs from the stem (the basename with its extension
removed). -/
theorem C10_strip_mangles (sep : Char) (path stem : List Char)
    (hbase : (path.splitOn sep).getLastD [] = stem ++ onnxChars)
    (hne : stem ≠ [])
    (hcond : (∃ c, stem.head? = some c ∧ c ∈ onnxChars)
      ∨ (∃ c, stem.getLast? = some c ∧ c ∈ onnxChars)) :
    mdl_name_of_path sep path ≠ stem := by
  rw [mdl_name_of_path, hbase]
  intro heq
  have hlen : (pyStrip onnxChars (stem ++ onnxChars)).length < stem.length := by
    have hnil : List.dropWhile (fun c => onnxChars.contains c) onnxChars = [] := by
      decide
    have hrevall : ∀ c ∈ onnxChars.reverse, (onnxChars.contains c) = true := by
      decide
    rw [pyStrip, pyLStrip, pyLStrip]
    by_cases hs : List.dropWhile (fun c => onnxChars.contains c) stem = []
    · rw [List.dropWhile_append, if_pos (by rw [List.isEmpty_iff]; exact hs), hnil]
      simp only [List.reverse_nil, List.dropWhile_nil, List.length_nil]
      exact List.length_pos.mpr hne
    · have hu : List.dropWhile (fun c => onnxChars.contains c) (stem ++ onnxChars)
          = List.dropWhile (fun c => onnxChars.contains c) stem ++ onnxChars := by
        rw [List.dropWhile_append,
          if_neg (by rw [List.isEmpty_iff]; exact hs)]
      rw [hu, List.reverse_append,
        dropWhile_skip_all (fun c => onnxChars.contains c) onnxChars.reverse _ hrevall,
        List.length_reverse]
      have hsuffix : List.dropWhile (fun c => onnxChars.contains c) stem <:+ stem :=
        List.dropWhile_suffix (fun c => onnxChars.contains c)
      have hslen : (List.dropWhile (fun c => onnxChars.contains c) stem).length
          ≤ stem.length := hsuffix.length_le
      have hdrop_le : ∀ l : List Char,
          (List.dropWhile (fun c => onnxChars.contains c) l).length ≤ l.length :=
        fun l => (List.dropWhile_suffix (fun c => onnxChars.contains c)).length_le
      have houter := hdrop_le (List.dropWhile (fun c => onnxChars.contains c) stem).reverse
      rw [List.length_reverse] at houter
      rcases hcond with ⟨c, hc1, hc2⟩ | ⟨c, hc1, hc2⟩
      · -- the stem begins with a strip character
        have hpc : (onnxChars.contains c) = true := List.elem_eq_true_of_mem hc2
        have hinner := dropWhile_head_length (fun c => onnxChars.contains c) c stem
          hc1 hpc
        omega
      · -- the stem ends with a strip character
        have hpc : (onnxChars.contains c) = true := List.elem_eq_true_of_mem hc2
        have hslast : (List.dropWhile (fun c => onnxChars.contains c) stem).getLast?
            = some c := by
          obtain ⟨t, ht⟩ := hsuffix
          have h1 : stem.getLast?
              = ((List.dropWhile (fun c => onnxChars.contains c) stem).getLast?).or
                 t.getLast? := by
            conv_lhs => rw [← ht]
            rw [List.getLast?_append]
          rw [List.getLast?_eq_getLast _ hs] at h1
          rw [hc1] at h1
          simp only [Option.or] at h1
          rw [List.getLast?_eq_getLast _ hs]
          injection h1 with h2
          rw [h2]
        have hrev : (List.dropWhile (fun c => onnxChars.contains c) stem).reverse.head?
            = some c := by
          rw [List.head?_reverse]
          exact hslast
        have hinner := dropWhile_head_length (fun c => onnxChars.contains c) c
          (List.dropWhile (fun c => onnxChars.contains c) stem).reverse hrev hpc
        rw [List.length_reverse] at hinner
        omega
  rw [heq] at hlen
  exact Nat.lt_irrefl _ hlen

/-- C10 witness: the basename oxen.onnx (stem oxen, which begins with o)
registers under a name different from its stem: `"oxen.onnx".strip(".onnx")`
gives e, not oxen. -/
theorem C10_strip_mangles_witness :
    mdl_name_of_path '/' "oxen.onnx".data ≠ "oxen".data := by
  exact C10_strip_mangles '/' "oxen.onnx".data "oxen".data (by decide) (by decide)
    (by decide)

end OpenWakeWord
